import Mathlib

/-
  Verification development for the access-gated test application
  (client in src/src, serverless functions in src/functions, build guide
  in src/docs and the unnamed build-guide chapters).

  Shallow embedding conventions:
  * JS strings are Lean `String`s; `undefined`/absent values are `Option`.
  * JS string truthiness (empty string falsy) is modelled explicitly.
  * The Appwrite gateway and the Postal transport are external: each call
    site is parameterised by a stream of per-attempt outcomes.
  * The document store is a list of documents; `queries[]=limit(1)`
    returns the head of the list.
-/

namespace TestApp

/-- JS `String.prototype.trim` on the character list: strip leading and
trailing whitespace. -/
def jsTrimList (l : List Char) : List Char :=
  ((l.dropWhile Char.isWhitespace).reverse.dropWhile Char.isWhitespace).reverse

/-- JS `String.prototype.trim`. -/
def jsTrim (s : String) : String := ⟨jsTrimList s.data⟩

/-- JS `String.prototype.toUpperCase`, restricted to ASCII (all access
codes in the repository are ASCII). -/
def jsToUpper (s : String) : String := ⟨s.data.map Char.toUpper⟩

/-- `code.trim().toUpperCase()` as computed in
`src/functions/verify-access-code/src/main.js` line 48. -/
def normCode (s : String) : String := jsToUpper (jsTrim s)

/-- Role a submitted access code resolves to. -/
inductive Role where
  | editor
  | student
  | invalid
deriving DecidableEq, Repr

/-- `isEditor` from `verify-access-code/src/main.js` line 49:
`editorCode && trimmedCode === editorCode.trim().toUpperCase()`.
An unset or empty `EDITOR_CODE` is falsy, so the editor role is then
unavailable. -/
def isEditorCode (editorCode : Option String) (code : String) : Bool :=
  match editorCode with
  | none => false
  | some e => e ≠ "" && normCode code == normCode e

/-- `isStudent` from `verify-access-code/src/main.js` line 50:
`trimmedCode === accessCode.trim().toUpperCase()`. -/
def isStudentCode (accessCode : String) (code : String) : Bool :=
  normCode code == normCode accessCode

/-- Role resolution of the default verify branch
(`verify-access-code/src/main.js` lines 138-150): editor checked first,
then student, otherwise the code is invalid. -/
def resolveRole (accessCode : String) (editorCode : Option String) (code : String) : Role :=
  if isEditorCode editorCode code then .editor
  else if isStudentCode accessCode code then .student
  else .invalid

/-- C6: with a configured editor secret distinct (after normalisation) from
the student secret, role resolution maps any code normalising to the editor
secret to `editor`, any code normalising to the student secret to `student`,
and every other code to `invalid`; since resolution compares only the
trim+uppercase normal forms, surrounding whitespace and case never affect
the result. -/
theorem resolveRole_maps_codes (acc ecd : String) (hecd : ecd ≠ "")
    (hconf : normCode ecd ≠ normCode acc) (c : String) :
    (normCode c = normCode ecd → resolveRole acc (some ecd) c = .editor) ∧
    (normCode c = normCode acc → resolveRole acc (some ecd) c = .student) ∧
    (normCode c ≠ normCode ecd → normCode c ≠ normCode acc →
      resolveRole acc (some ecd) c = .invalid) := by
  refine ⟨fun h => ?_, fun h => ?_, fun h1 h2 => ?_⟩ <;>
    simp [resolveRole, isEditorCode, isStudentCode, hecd, *]
  intro hce
  exact absurd hce.symm hconf

/-- Witness for C6 at the spec's own example: with secrets `TEST2026` and
`EDIT2026`, the submission `" test2026 "` resolves to `student` exactly as
`"TEST2026"` does, and `"WRONG"` is invalid. -/
theorem resolveRole_maps_codes_witness :
    resolveRole "TEST2026" (some "EDIT2026") " test2026 " = .student ∧
    resolveRole "TEST2026" (some "EDIT2026") "TEST2026" = .student ∧
    resolveRole "TEST2026" (some "EDIT2026") "WRONG" = .invalid := by
  refine ⟨?_, ?_, ?_⟩
  · exact (resolveRole_maps_codes "TEST2026" "EDIT2026" (by decide) (by decide)
      " test2026 ").2.1 (by decide)
  · exact (resolveRole_maps_codes "TEST2026" "EDIT2026" (by decide) (by decide)
      "TEST2026").2.1 (by decide)
  · exact (resolveRole_maps_codes "TEST2026" "EDIT2026" (by decide) (by decide)
      "WRONG").2.2 (by decide) (by decide)

/-! ## The verify-access-code function and its document store -/

/-- JS truthiness of an optional string (both `undefined` and the empty
string are falsy). -/
def truthy (o : Option String) : Bool :=
  match o with
  | none => false
  | some s => s ≠ ""

/-- A stored document: the Appwrite `$id` plus the serialized payload kept
in its `data` attribute. -/
structure Doc where
  id : Nat
  data : String
deriving DecidableEq, Repr

/-- The questions collection. -/
abbrev Store := List Doc

/-- Environment configuration consumed by verify-access-code. -/
structure Env where
  accessCode : Option String
  editorCode : Option String
  apiKey : Option String
deriving Repr

/-- Parsed POST body of a request to verify-access-code
(`const { code, action, questions } = body`). The questions payload is
opaque to the function: it is only ever re-serialized and stored. -/
structure VerifyReq where
  code : Option String
  action : Option String
  questions : Option String
deriving Repr

/-- JSON response of a serverless function. A field whose value is `none`
is absent from the response object; `questions = some none` models a
present `questions: null` field. -/
structure Response where
  status : Nat := 200
  ok : Bool
  valid : Option Bool := none
  role : Option String := none
  error : Option String := none
  questions : Option (Option String) := none
  saved : Option Bool := none
deriving DecidableEq, Repr

/-- The existence probe `queries[]=limit(1)`: the first listed document,
if any. -/
def probe (store : Store) : Option Doc := store.head?

/-- PATCH of one document's `data` attribute. -/
def updateDoc (store : Store) (docId : Nat) (s : String) : Store :=
  store.map (fun d => if d.id = docId then { d with data := s } else d)

/-- The verify-access-code handler
(`src/functions/verify-access-code/src/main.js` lines 21-155) on an
already-parsed POST body. The store is passed and returned explicitly;
`freshId` stands for the id Appwrite mints for `documentId: 'unique()'`;
database transport is modelled as reachable and successful. -/
def verifyHandler (env : Env) (store : Store) (freshId : Nat) (req : VerifyReq) :
    Response × Store :=
  let codeVal := req.code.getD ""
  if codeVal = "" then
    ({ status := 400, ok := false, valid := some false,
       error := some "No code provided" }, store)
  else
    let accessVal := env.accessCode.getD ""
    if accessVal = "" then
      ({ status := 500, ok := false, error := some "Server configuration error" }, store)
    else
      let isEd := isEditorCode env.editorCode codeVal
      let isSt := isStudentCode accessVal codeVal
      if req.action = some "load-questions" then
        if !(isEd || isSt) then
          ({ status := 403, ok := false, error := some "Unauthorized" }, store)
        else if !truthy env.apiKey then
          ({ ok := true, questions := some none }, store)
        else
          match probe store with
          | some d => ({ ok := true, questions := some (some d.data) }, store)
          | none => ({ ok := true, questions := some none }, store)
      else if req.action = some "save-questions" then
        if !isEd then
          ({ status := 403, ok := false, error := some "Unauthorized" }, store)
        else
          match req.questions with
          | none =>
              ({ status := 400, ok := false, error := some "No questions provided" }, store)
          | some payload =>
              if !truthy env.apiKey then
                ({ status := 500, ok := false,
                   error := some "Server configuration error" }, store)
              else
                match probe store with
                | some d => ({ ok := true, saved := some true }, updateDoc store d.id payload)
                | none => ({ ok := true, saved := some true }, store ++ [⟨freshId, payload⟩])
      else
        if isEd then ({ ok := true, valid := some true, role := some "editor" }, store)
        else if isSt then ({ ok := true, valid := some true, role := some "student" }, store)
        else ({ ok := true, valid := some false }, store)

/-- The default (verify) branch of the build-guide variant of the same
function (`src/unnamed/part_004` lines 101-124), for an already-validated
code: it probes the store once and attaches the loaded payload (or null)
to the verification response. `doc && doc.data` makes an empty stored
payload falsy, leaving `questions: null`. -/
def docVerifyDefault (env : Env) (store : Store) (code : String) : Response :=
  let isEd := isEditorCode env.editorCode code
  let role := if isEd then "editor" else "student"
  let loaded : Option String :=
    if truthy env.apiKey then
      match probe store with
      | some d => if d.data = "" then none else some d.data
      | none => none
    else none
  { ok := true, valid := some true, role := some role, questions := some loaded }

/-- C9: a save-questions request whose code does not resolve to the editor
role (a student code or an unknown code) is answered with the Unauthorized
error response — distinct from the invalid-code verify result — and the
store is left unwritten. -/
theorem saveQuestions_requires_editor (env : Env) (store : Store) (freshId : Nat)
    (req : VerifyReq) (hcode : req.code.getD "" ≠ "")
    (hacc : env.accessCode.getD "" ≠ "")
    (hact : req.action = some "save-questions")
    (hnoted : isEditorCode env.editorCode (req.code.getD "") = false) :
    verifyHandler env store freshId req =
      ({ status := 403, ok := false, error := some "Unauthorized" }, store) ∧
    ({ status := 403, ok := false, error := some "Unauthorized" } : Response) ≠
      ({ ok := true, valid := some false } : Response) := by
  refine ⟨?_, by decide⟩
  simp [verifyHandler, hact, hcode, hacc, hnoted]

/-- Witness for C9: the student code `TEST2026` attempting save-questions
is refused with Unauthorized and the (empty) store stays empty. -/
theorem saveQuestions_requires_editor_witness :
    verifyHandler
      { accessCode := some "TEST2026", editorCode := some "EDIT2026", apiKey := some "k" }
      [] 1
      { code := some "TEST2026", action := some "save-questions", questions := some "[]" } =
      ({ status := 403, ok := false, error := some "Unauthorized" }, []) :=
  (saveQuestions_requires_editor
    { accessCode := some "TEST2026", editorCode := some "EDIT2026", apiKey := some "k" }
    [] 1
    { code := some "TEST2026", action := some "save-questions", questions := some "[]" }
    (by decide) (by decide) rfl (by decide)).1

/-- C2 (code bug): on a successful default verify of the student code, the
shipped handler (`verify-access-code/src/main.js` lines 138-150) returns
`{ok, valid, role}` with no `questions` field at all — it never consults
the content store — whereas the repository's own build guide
(`src/unnamed/part_004`) has the same branch probe the store once and
attach the loaded payload to the response. -/
theorem verify_response_omits_preload :
    (verifyHandler
        { accessCode := some "TEST2026", editorCode := some "EDIT2026", apiKey := some "key" }
        [⟨1, "SAVED_PAYLOAD"⟩] 2
        { code := some "TEST2026", action := none, questions := none }).1 =
      { ok := true, valid := some true, role := some "student" } ∧
    (verifyHandler
        { accessCode := some "TEST2026", editorCode := some "EDIT2026", apiKey := some "key" }
        [⟨1, "SAVED_PAYLOAD"⟩] 2
        { code := some "TEST2026", action := none, questions := none }).1.questions = none ∧
    docVerifyDefault
        { accessCode := some "TEST2026", editorCode := some "EDIT2026", apiKey := some "key" }
        [⟨1, "SAVED_PAYLOAD"⟩] "TEST2026" =
      { ok := true, valid := some true, role := some "student",
        questions := some (some "SAVED_PAYLOAD") } := by
  refine ⟨by decide, by decide, by decide⟩

/-- The store transition of a well-formed editor save: update the probed
document if one exists, otherwise create a fresh one. -/
theorem verifyHandler_save_store (env : Env) (store : Store) (freshId : Nat)
    (req : VerifyReq) (p : String) (hcode : req.code.getD "" ≠ "")
    (hacc : env.accessCode.getD "" ≠ "")
    (hact : req.action = some "save-questions")
    (hed : isEditorCode env.editorCode (req.code.getD "") = true)
    (hq : req.questions = some p) (hkey : truthy env.apiKey = true) :
    (verifyHandler env store freshId req).2 =
      match store.head? with
      | some d => updateDoc store d.id p
      | none => store ++ [⟨freshId, p⟩] := by
  cases store <;> simp [verifyHandler, probe, hact, hcode, hacc, hed, hq, hkey]

/-- C7 counterexample: from a store already holding two documents (the
aftermath of the concurrent create/create race the spec documents), two
sequential saves update the first probed document both times and leave two
documents, not exactly one. -/
theorem save_twice_two_docs_counterexample :
    (verifyHandler
        { accessCode := some "TEST2026", editorCode := some "EDIT2026", apiKey := some "k" }
        ((verifyHandler
            { accessCode := some "TEST2026", editorCode := some "EDIT2026", apiKey := some "k" }
            [⟨1, "a"⟩, ⟨2, "b"⟩] 7
            { code := some "EDIT2026", action := some "save-questions",
              questions := some "P1" }).2) 8
        { code := some "EDIT2026", action := some "save-questions",
          questions := some "P2" }).2.length = 2 ∧
    ¬ (verifyHandler
        { accessCode := some "TEST2026", editorCode := some "EDIT2026", apiKey := some "k" }
        ((verifyHandler
            { accessCode := some "TEST2026", editorCode := some "EDIT2026", apiKey := some "k" }
            [⟨1, "a"⟩, ⟨2, "b"⟩] 7
            { code := some "EDIT2026", action := some "save-questions",
              questions := some "P1" }).2) 8
        { code := some "EDIT2026", action := some "save-questions",
          questions := some "P2" }).2.length = 1 := by
  refine ⟨by decide, by decide⟩

/-- C7 amended: for every store state holding at most one document (the
states sequential use can reach), two sequential saves leave exactly one
stored document; a save creates only on an empty store (count becomes 1)
and otherwise updates the first probed document in place, preserving the
count. -/
theorem save_twice_single_doc (env : Env) (store : Store) (f₁ f₂ : Nat)
    (req₁ req₂ : VerifyReq) (p₁ p₂ : String)
    (hcode₁ : req₁.code.getD "" ≠ "") (hcode₂ : req₂.code.getD "" ≠ "")
    (hacc : env.accessCode.getD "" ≠ "")
    (hact₁ : req₁.action = some "save-questions")
    (hact₂ : req₂.action = some "save-questions")
    (hed₁ : isEditorCode env.editorCode (req₁.code.getD "") = true)
    (hed₂ : isEditorCode env.editorCode (req₂.code.getD "") = true)
    (hq₁ : req₁.questions = some p₁) (hq₂ : req₂.questions = some p₂)
    (hkey : truthy env.apiKey = true) :
    ((verifyHandler env store f₁ req₁).2.length =
      if store.length = 0 then 1 else store.length) ∧
    (store.length ≤ 1 →
      ((verifyHandler env ((verifyHandler env store f₁ req₁).2) f₂ req₂).2).length = 1) ∧
    (∀ d rest, store = d :: rest →
      (verifyHandler env store f₁ req₁).2 = updateDoc store d.id p₁) := by
  have h₁ := verifyHandler_save_store env store f₁ req₁ p₁ hcode₁ hacc hact₁ hed₁ hq₁ hkey
  refine ⟨?_, ?_, ?_⟩
  · cases store with
    | nil => simp [h₁]
    | cons d rest => simp [h₁, updateDoc]
  · intro hle
    cases store with
    | nil =>
        have h₂ := verifyHandler_save_store env ((verifyHandler env [] f₁ req₁).2) f₂
          req₂ p₂ hcode₂ hacc hact₂ hed₂ hq₂ hkey
        simp [h₁] at h₂ ⊢
        simp [h₂, updateDoc]
    | cons d rest =>
        cases rest with
        | nil =>
            have h₂ := verifyHandler_save_store env ((verifyHandler env [d] f₁ req₁).2) f₂
              req₂ p₂ hcode₂ hacc hact₂ hed₂ hq₂ hkey
            simp [h₁, updateDoc] at h₂ ⊢
            simp [h₂, updateDoc]
        | cons e rest₂ => simp at hle
  · intro d rest hstore
    subst hstore
    simp [h₁]

/-- Witness for C7: starting from the empty (never-created) store, two
sequential editor saves leave exactly one stored document. -/
theorem save_twice_single_doc_witness :
    ((verifyHandler
        { accessCode := some "TEST2026", editorCode := some "EDIT2026", apiKey := some "k" }
        ((verifyHandler
            { accessCode := some "TEST2026", editorCode := some "EDIT2026", apiKey := some "k" }
            [] 7
            { code := some "EDIT2026", action := some "save-questions",
              questions := some "P1" }).2) 8
        { code := some "EDIT2026", action := some "save-questions",
          questions := some "P2" }).2).length = 1 :=
  (save_twice_single_doc
    { accessCode := some "TEST2026", editorCode := some "EDIT2026", apiKey := some "k" }
    [] 7 8
    { code := some "EDIT2026", action := some "save-questions", questions := some "P1" }
    { code := some "EDIT2026", action := some "save-questions", questions := some "P2" }
    "P1" "P2" (by decide) (by decide) (by decide) rfl rfl (by decide) (by decide)
    rfl rfl (by decide)).2.1 (by decide)

/-! ## Question data model (src/src/data/questionsData.ts) -/

/-- The polymorphic question type: `multiple-choice`, `multiple-answer`
and `essay`, discriminated by the `type` tag. The optional
`randomizeOptions` flag is modelled as a `Bool` (an absent flag is the
falsy `false`). -/
inductive Question where
  | mc (id : Nat) (prompt : String) (imageUrl : Option String)
      (options : List String) (correctIndex : Nat) (randomizeOptions : Bool)
  | ma (id : Nat) (prompt : String) (imageUrl : Option String)
      (options : List String) (correctIndices : List Nat) (randomizeOptions : Bool)
  | essay (id : Nat) (prompt : String) (imageUrl : Option String)
deriving DecidableEq, Repr

/-- `TestConfig`: test-wide settings. -/
structure TestConfig where
  randomizeQuestions : Option Bool := none
deriving DecidableEq, Repr

/-- `TestDataPayload`: `{ settings, questions }`. -/
structure TestDataPayload where
  settings : TestConfig
  questions : List Question
deriving Repr

/-! ## Grading engine (formatResults, questionsData.ts lines 374-438) -/

/-- `(answers[q.id] as string) || '(no answer)'` — the JS `||` default
applies both to a missing answer and to a (falsy) empty-string answer. -/
def effectiveAnswer (ans : Option String) : String :=
  match ans with
  | none => "(no answer)"
  | some s => if s = "" then "(no answer)" else s

/-- The multiple-choice `isCorrect` computation of `formatResults`
(lines 382-388): `answer === mc.options[mc.correctIndex]`. An
out-of-range `correctIndex` reads `undefined`, which a string never
equals. Total by construction: grading never throws. -/
def gradeMC (options : List String) (correctIndex : Nat) (ans : Option String) : Bool :=
  match options[correctIndex]? with
  | some c => effectiveAnswer ans == c
  | none => false

/-- `selected.includes(o)` for `o = ma.options[i]`: `includes(undefined)`
on a string array is false. -/
def includesOpt (selected : List String) (o : Option String) : Bool :=
  match o with
  | some s => selected.contains s
  | none => false

/-- The multiple-answer `isCorrect` computation of `formatResults`
(lines 397-405): `selected.length === correctOptions.length &&
correctOptions.every(o => selected.includes(o))` where
`correctOptions = ma.correctIndices.map(i => ma.options[i])` and a
missing answer defaults to the empty selection. -/
def gradeMA (options : List String) (correctIndices : List Nat)
    (selected : List String) : Bool :=
  let correctOptions := correctIndices.map (fun i => options[i]?)
  selected.length == correctOptions.length &&
    correctOptions.all (fun o => includesOpt selected o)

/-- The spec's stated grading rule for MultipleAnswer, written from its
words for comparison with the source's `gradeMA`: the submitted set of
strings equals the set of correct option values (same members,
order-independent). -/
def specMACorrect (options : List String) (correctIndices : List Nat)
    (selected : List String) : Prop :=
  selected.toFinset = (correctIndices.filterMap (fun i => options[i]?)).toFinset

/-- C4 counterexample: when the correct option is the literal string
`"(no answer)"`, a missing answer is graded CORRECT, because the missing
answer defaults to that same placeholder string before the comparison. -/
theorem gradeMC_missing_answer_counterexample :
    gradeMC ["(no answer)", "B"] 0 none = true ∧
    gradeMC ["(no answer)", "B"] 0 none ≠ false := by
  refine ⟨by decide, by decide⟩

/-- C4 amended: a present non-empty answer is graded correct iff it equals
`options[correctIndex]` by string identity; a missing answer is graded
incorrect whenever the correct option is not itself the literal
`"(no answer)"` placeholder; an out-of-range `correctIndex` grades
incorrect; grading is a total function (never throws). -/
theorem gradeMC_by_value (options : List String) (ci : Nat) :
    (∀ s : String, s ≠ "" →
      (gradeMC options ci (some s) = true ↔ options[ci]? = some s)) ∧
    (options[ci]? ≠ some "(no answer)" → gradeMC options ci none = false) ∧
    (options.length ≤ ci → ∀ ans, gradeMC options ci ans = false) := by
  refine ⟨fun s hs => ?_, fun hno => ?_, fun hle ans => ?_⟩
  · cases h : options[ci]? with
    | none => simp [gradeMC, h]
    | some c =>
        simp only [gradeMC, effectiveAnswer, h, if_neg hs, beq_iff_eq,
          Option.some.injEq]
        exact ⟨fun hc => hc.symm, fun hc => hc.symm⟩
  · cases h : options[ci]? with
    | none => simp [gradeMC, h]
    | some c =>
        have : c ≠ "(no answer)" := fun hc => hno (by simp [h, hc])
        simp [gradeMC, effectiveAnswer, h]
        exact fun hc => absurd hc.symm this
  · have h : options[ci]? = none := by
      exact List.getElem?_eq_none hle
    simp [gradeMC, h]

/-- Witness for C4 at the spec's example: options `A/B/C` with
`correctIndex = 1`; submitted `"B"` is correct and a missing answer is
incorrect. -/
theorem gradeMC_by_value_witness :
    gradeMC ["A", "B", "C"] 1 (some "B") = true ∧
    gradeMC ["A", "B", "C"] 1 none = false :=
  ⟨((gradeMC_by_value ["A", "B", "C"] 1).1 "B" (by decide)).mpr (by decide),
   (gradeMC_by_value ["A", "B", "C"] 1).2.1 (by decide)⟩

/-- C5 counterexample: with duplicated option values
(`options = ["X","X","Y"]`, `correctIndices = [0,1]`, so the set of
correct option values is `{"X"}`), the submission `["X","Y"]` is graded
CORRECT by the length-plus-membership test although its set differs from
the correct set. -/
theorem gradeMA_duplicate_options_counterexample :
    gradeMA ["X", "X", "Y"] [0, 1] ["X", "Y"] = true ∧
    ¬ specMACorrect ["X", "X", "Y"] [0, 1] ["X", "Y"] := by
  refine ⟨by decide, ?_⟩
  unfold specMACorrect
  decide

/-- With every correct index in range, the option lookups along
`correctIndices` all succeed. -/
theorem map_lookup_eq_filterMap (options : List String) (cis : List Nat)
    (hvalid : ∀ i ∈ cis, i < options.length) :
    cis.map (fun i => options[i]?) =
      (cis.filterMap (fun i => options[i]?)).map some := by
  induction cis with
  | nil => rfl
  | cons c t ih =>
      have hc : c < options.length := hvalid c (by simp)
      have hsome : options[c]? = some options[c] := List.getElem?_eq_getElem hc
      simp only [List.map_cons, List.filterMap_cons, hsome]
      exact congrArg (List.cons (some options[c]))
        (ih (fun i hi => hvalid i (by simp [hi])))

/-- C5 amended: the grader tests `selected.length = correctIndices.length`
plus membership of every correct option value in the selection; whenever
the correct option values are pairwise distinct and the submission has no
duplicates (always true of the checkbox UI), this coincides with
set equality between the submission and the set of correct option values.
With duplicated option values the two rules can disagree. -/
theorem gradeMA_set_equality (options : List String) (cis : List Nat)
    (selected : List String)
    (hvalid : ∀ i ∈ cis, i < options.length)
    (hcnd : (cis.filterMap (fun i => options[i]?)).Nodup)
    (hsnd : selected.Nodup) :
    gradeMA options cis selected = true ↔ specMACorrect options cis selected := by
  have hmap := map_lookup_eq_filterMap options cis hvalid
  set cv := cis.filterMap (fun i => options[i]?) with hcv
  have hlen : cv.length = cis.length := by
    have := congrArg List.length hmap
    simpa using this.symm
  have hgrade : gradeMA options cis selected = true ↔
      (selected.length = cv.length ∧ ∀ s ∈ cv, s ∈ selected) := by
    simp only [gradeMA, hmap, List.all_map, List.length_map]
    simp [includesOpt, Function.comp, List.all_eq_true]
  rw [hgrade]
  constructor
  · rintro ⟨h1, h2⟩
    have hsub : cv.toFinset ⊆ selected.toFinset := by
      intro x hx
      exact List.mem_toFinset.mpr (h2 x (List.mem_toFinset.mp hx))
    have hcard : selected.toFinset.card ≤ cv.toFinset.card := by
      rw [List.toFinset_card_of_nodup hsnd, List.toFinset_card_of_nodup hcnd, h1]
    exact (Finset.eq_of_subset_of_card_le hsub hcard).symm
  · intro hset
    have hset2 : selected.toFinset = cv.toFinset := hset
    constructor
    · have := congrArg Finset.card hset2
      rwa [List.toFinset_card_of_nodup hsnd, List.toFinset_card_of_nodup hcnd]
        at this
    · intro s hsv
      exact List.mem_toFinset.mp (hset2 ▸ List.mem_toFinset.mpr hsv)

/-- Witness for C5 at the spec's example: `options = ["X","Y","Z"]`,
`correctIndices = [0,2]`; submitted `["X","Z"]` is correct while `["X"]`,
`["X","Y","Z"]` and `[]` are incorrect. -/
theorem gradeMA_set_equality_witness :
    gradeMA ["X", "Y", "Z"] [0, 2] ["X", "Z"] = true ∧
    gradeMA ["X", "Y", "Z"] [0, 2] ["X"] = false ∧
    gradeMA ["X", "Y", "Z"] [0, 2] ["X", "Y", "Z"] = false ∧
    gradeMA ["X", "Y", "Z"] [0, 2] [] = false :=
  ⟨(gradeMA_set_equality ["X", "Y", "Z"] [0, 2] ["X", "Z"]
      (by decide) (by decide) (by decide)).mpr
      (by unfold specMACorrect; decide),
   by decide, by decide, by decide⟩

/-! ## Client-side randomization (processPayload, src/unnamed/part_006 lines 10-30) -/

/-- The outcome of `[...opts].sort(() => Math.random() - 0.5)` is some
rearrangement of the array. It is modelled by the position permutation `p`
it realises: slot `i` of the shuffled array holds `opts[p[i]]`. -/
def applyPerm (p : List Nat) (opts : List String) : List String :=
  p.map (fun i => opts.getD i "")

/-- The per-question branch of `processPayload` (part_006 lines 19-26):
for a non-essay question with `randomizeOptions` set, the options array is
replaced by a rearrangement of itself; every other field — in particular
`correctIndex` and `correctIndices` — is copied unchanged. -/
def shuffleQuestionOptions (p : List Nat) : Question → Question
  | .mc id prompt img opts ci rnd =>
      if rnd then .mc id prompt img (applyPerm p opts) ci rnd
      else .mc id prompt img opts ci rnd
  | .ma id prompt img opts cis rnd =>
      if rnd then .ma id prompt img (applyPerm p opts) cis rnd
      else .ma id prompt img opts cis rnd
  | .essay id prompt img => .essay id prompt img

/-- The option value a MultipleChoice question's `correctIndex` denotes. -/
def mcCorrectValue : Question → Option String
  | .mc _ _ _ opts ci _ => opts[ci]?
  | _ => none

/-- C1 counterexample: shuffling the options `["A","B"]` of a
multiple-choice question with `correctIndex = 0` by the transposition
(a realizable outcome of the random sort) leaves `correctIndex` at `0`,
which now denotes `"B"`, not the original correct option `"A"`. -/
theorem shuffle_stale_correctIndex_counterexample :
    mcCorrectValue (shuffleQuestionOptions [1, 0]
        (.mc 1 "q" none ["A", "B"] 0 true)) = some "B" ∧
    mcCorrectValue (.mc 1 "q" none ["A", "B"] 0 true) = some "A" ∧
    mcCorrectValue (shuffleQuestionOptions [1, 0]
        (.mc 1 "q" none ["A", "B"] 0 true)) ≠
      mcCorrectValue (.mc 1 "q" none ["A", "B"] 0 true) := by
  refine ⟨by decide, by decide, by decide⟩

/-- Reading every position of a list through `getD` reproduces the list. -/
theorem map_getD_range (l : List String) (d : String) :
    (List.range l.length).map (fun i => l.getD i d) = l := by
  induction l with
  | nil => rfl
  | cons a t ih =>
      rw [List.length_cons, List.range_succ_eq_map, List.map_cons, List.map_map]
      refine congrArg₂ List.cons rfl ?_
      have hfun : ((fun i => (a :: t).getD i d) ∘ Nat.succ) =
          fun i => t.getD i d := by
        funext i
        rfl
      rw [hfun]
      exact ih

/-- C1 amended: the shuffle replaces the options with their rearrangement
along the permutation `p` but leaves `correctIndex` (resp.
`correctIndices`) untouched, so the multiset of option values is
preserved while the correct-answer index stays at its old position:
slot `correctIndex` of the shuffled options holds `options[p[correctIndex]]`,
the original correct value only when `p` fixes that slot. (Grading is
unaffected: it matches answers by value against a freshly loaded
definition.) -/
theorem shuffle_keeps_index_permutes_options (id : Nat) (prompt : String)
    (img : Option String) (opts : List String) (ci : Nat) (cis : List Nat)
    (p : List Nat) (hp : p.Perm (List.range opts.length)) :
    shuffleQuestionOptions p (.mc id prompt img opts ci true) =
      .mc id prompt img (applyPerm p opts) ci true ∧
    shuffleQuestionOptions p (.ma id prompt img opts cis true) =
      .ma id prompt img (applyPerm p opts) cis true ∧
    (applyPerm p opts).Perm opts ∧
    (∀ j, p[ci]? = some j → (applyPerm p opts)[ci]? = opts[j]?) := by
  refine ⟨rfl, rfl, ?_, ?_⟩
  · have h1 : (applyPerm p opts).Perm
        ((List.range opts.length).map (fun i => opts.getD i "")) :=
      hp.map (fun i => opts.getD i "")
    rwa [map_getD_range] at h1
  · intro j hj
    have hjm : j ∈ p := by
      obtain ⟨hlt, hget⟩ := List.getElem?_eq_some.mp hj
      exact hget ▸ List.getElem_mem hlt
    have hjr : j ∈ List.range opts.length := hp.mem_iff.mp hjm
    have hjlt : j < opts.length := List.mem_range.mp hjr
    rw [applyPerm, List.getElem?_map, hj]
    rw [List.getElem?_eq_getElem hjlt]
    simp [List.getD_eq_getElem?_getD, List.getElem?_eq_getElem hjlt]

/-- Witness for C1 amended at a concrete rotation of a three-option
question: the options rotate, the index stays, and slot 1 now holds the
option that position 2 held before. -/
theorem shuffle_keeps_index_permutes_options_witness :
    shuffleQuestionOptions [2, 0, 1] (.mc 1 "q" none ["A", "B", "C"] 1 true) =
      .mc 1 "q" none (applyPerm [2, 0, 1] ["A", "B", "C"]) 1 true ∧
    (applyPerm [2, 0, 1] ["A", "B", "C"]).Perm ["A", "B", "C"] ∧
    (applyPerm [2, 0, 1] ["A", "B", "C"])[1]? = ["A", "B", "C"][0]? :=
  ⟨(shuffle_keeps_index_permutes_options 1 "q" none ["A", "B", "C"] 1 []
      [2, 0, 1] (by decide)).1,
   (shuffle_keeps_index_permutes_options 1 "q" none ["A", "B", "C"] 1 []
      [2, 0, 1] (by decide)).2.2.1,
   (shuffle_keeps_index_permutes_options 1 "q" none ["A", "B", "C"] 1 []
      [2, 0, 1] (by decide)).2.2.2 0 (by decide)⟩

/-! ## Retry harnesses

Each call site wraps the gateway in its own bounded retry loop. A loop is
modelled on a stream of per-attempt gateway outcomes; it returns its
result together with the number of gateway calls issued and the total
`setTimeout` delay in milliseconds. -/

/-- One gateway attempt as seen by `executeWithRetry`
(questionsData.ts lines 175-195): either `functions.createExecution`
rejects, or it resolves with a response body. -/
inductive ExecOutcome where
  | throw
  | ok (responseBody : String)
deriving DecidableEq, Repr

/-- `MAX_RETRIES` of questionsData.ts line 172. -/
def MAX_RETRIES : Nat := 5

/-- `RETRY_DELAY_MS` of questionsData.ts line 173. -/
def RETRY_DELAY_MS : Nat := 3000

/-- The for-loop of `executeWithRetry`: `remaining` counts the attempts
still allowed (including the current one), `calls` the gateway calls made
so far, `delay` the accumulated waits. A resolved call returns
`result.responseBody || null` at once — the empty body collapses to
`none`; a rejected call waits `RETRY_DELAY_MS` unless it was the last
attempt. -/
def ewrGo (outcomes : Nat → ExecOutcome) : Nat → Nat → Nat →
    Option String × Nat × Nat
  | 0, calls, delay => (none, calls, delay)
  | remaining + 1, calls, delay =>
      match outcomes calls with
      | .ok body => (if body = "" then none else some body, calls + 1, delay)
      | .throw =>
          if remaining = 0 then (none, calls + 1, delay)
          else ewrGo outcomes remaining (calls + 1) (delay + RETRY_DELAY_MS)

/-- `executeWithRetry` (questionsData.ts lines 175-195). -/
def executeWithRetry (outcomes : Nat → ExecOutcome) : Option String × Nat × Nat :=
  ewrGo outcomes MAX_RETRIES 0 0

/-- If the first `k` calls reject and call `k` resolves with a non-empty
body, the loop returns that body after exactly `k + 1` calls and `k`
fixed delays. -/
theorem ewrGo_succ_at (outcomes : Nat → ExecOutcome) (b : String) (hb : b ≠ "") :
    ∀ k remaining calls delay, k < remaining →
      (∀ i, i < k → outcomes (calls + i) = .throw) →
      outcomes (calls + k) = .ok b →
      ewrGo outcomes remaining calls delay =
        (some b, calls + k + 1, delay + k * RETRY_DELAY_MS) := by
  intro k
  induction k with
  | zero =>
      intro remaining calls delay hk hfail hsucc
      cases remaining with
      | zero => omega
      | succ r =>
          have hs : outcomes calls = .ok b := by simpa using hsucc
          simp [ewrGo, hs, hb]
  | succ k ih =>
      intro remaining calls delay hk hfail hsucc
      cases remaining with
      | zero => omega
      | succ r =>
          have h0 : outcomes calls = .throw := by
            simpa using hfail 0 (by omega)
          have hr : r ≠ 0 := by omega
          rw [ewrGo, h0]
          simp only [hr, if_false]
          rw [ih r (calls + 1) (delay + RETRY_DELAY_MS) (by omega)
            (fun i hi => by
              have := hfail (i + 1) (by omega)
              simpa [Nat.add_assoc, Nat.add_comm 1 i] using this)
            (by simpa [Nat.add_assoc, Nat.add_comm 1 k] using hsucc)]
          refine congrArg₂ Prod.mk rfl (congrArg₂ Prod.mk (by omega) (by ring))

/-- If every allowed call rejects, the loop returns `none` after exactly
`remaining` calls, with a fixed delay after each non-final failure. -/
theorem ewrGo_all_fail (outcomes : Nat → ExecOutcome) :
    ∀ remaining calls delay, 0 < remaining →
      (∀ i, i < remaining → outcomes (calls + i) = .throw) →
      ewrGo outcomes remaining calls delay =
        (none, calls + remaining, delay + (remaining - 1) * RETRY_DELAY_MS) := by
  intro remaining
  induction remaining with
  | zero => omega
  | succ r ih =>
      intro calls delay _ hfail
      have h0 : outcomes calls = .throw := by simpa using hfail 0 (by omega)
      rw [ewrGo, h0]
      cases Nat.eq_zero_or_pos r with
      | inl hr => subst hr; simp
      | inr hr =>
          have hrne : r ≠ 0 := by omega
          simp only [hrne, if_false]
          rw [ih (calls + 1) (delay + RETRY_DELAY_MS) hr
            (fun i hi => by
              have := hfail (i + 1) (by omega)
              simpa [Nat.add_assoc, Nat.add_comm 1 i] using this)]
          obtain ⟨k, hk⟩ : ∃ k, r = k + 1 := ⟨r - 1, by omega⟩
          subst hk
          refine congrArg₂ Prod.mk rfl (congrArg₂ Prod.mk (by omega) ?_)
          simp only [Nat.add_sub_cancel]
          ring

/-! ## Default questions and loadQuestions (questionsData.ts lines 111-227) -/

/-- The ten short lorem strings used as option texts. -/
def loremShort : List String :=
  ["Lorem ipsum dolor sit amet, consectetur adipiscing elit.",
   "Sed do eiusmod tempor incididunt ut labore et dolore magna aliqua.",
   "Ut enim ad minim veniam, quis nostrud exercitation ullamco laboris.",
   "Duis aute irure dolor in reprehenderit in voluptate velit esse cillum.",
   "Excepteur sint occaecat cupidatat non proident, sunt in culpa.",
   "Nulla facilisi morbi tempus iaculis urna id volutpat lacus.",
   "Viverra accumsan in nisl nisi scelerisque eu ultrices vitae.",
   "Amet consectetur adipiscing elit pellentesque habitant morbi tristique.",
   "Feugiat in ante metus dictum at tempor commodo ullamcorper.",
   "Egestas integer eget aliquet nibh praesent tristique magna sit."]

/-- The ten long lorem strings used as prompts. -/
def loremLong : List String :=
  ["Lorem ipsum dolor sit amet, consectetur adipiscing elit. Sed do eiusmod tempor incididunt ut labore et dolore magna aliqua. Ut enim ad minim veniam, quis nostrud exercitation ullamco laboris nisi ut aliquip ex ea commodo consequat.",
   "Duis aute irure dolor in reprehenderit in voluptate velit esse cillum dolore eu fugiat nulla pariatur. Excepteur sint occaecat cupidatat non proident, sunt in culpa qui officia deserunt mollit anim id est laborum.",
   "Pellentesque habitant morbi tristique senectus et netus et malesuada fames ac turpis egestas. Integer feugiat scelerisque varius morbi enim nunc faucibus a pellentesque.",
   "Viverra accumsan in nisl nisi scelerisque eu ultrices vitae auctor. Amet consectetur adipiscing elit pellentesque habitant morbi tristique senectus et netus.",
   "Feugiat in ante metus dictum at tempor commodo ullamcorper a lacus. Egestas integer eget aliquet nibh praesent tristique magna sit amet.",
   "Nulla facilisi morbi tempus iaculis urna id volutpat lacus laoreet. Turpis egestas maecenas pharetra convallis posuere morbi leo urna.",
   "Amet venenatis urna cursus eget nunc scelerisque viverra mauris in. Bibendum ut tristique et egestas quis ipsum suspendisse ultrices gravida.",
   "Risus commodo viverra maecenas accumsan lacus vel facilisis volutpat est. Pretium quam vulputate dignissim suspendisse in est ante in nibh.",
   "Sapien et ligula ullamcorper malesuada proin libero nunc consequat interdum. Ut placerat orci nulla pellentesque dignissim enim sit amet.",
   "Ornare arcu dui vivamus arcu felis bibendum ut tristique. Tortor posuere ac ut consequat semper viverra nam libero justo."]

/-- `pick`: `arr[index % arr.length]`. -/
def pick (arr : List String) (index : Nat) : String :=
  arr.getD (index % arr.length) ""

/-- One generated default question (questionsData.ts lines 141-162):
roughly 60% multiple choice, the rest essays. -/
def defaultQuestion (i : Nat) : Question :=
  let id := i + 1
  if id % 5 ≠ 0 ∧ id % 5 ≠ 3 then
    .mc id (toString id ++ ". " ++ pick loremLong i) none
      [pick loremShort i, pick loremShort (i + 1), pick loremShort (i + 2),
        pick loremShort (i + 3)]
      (i % 4) false
  else
    .essay id (toString id ++ ". " ++ pick loremLong i) none

/-- `defaultQuestions`: the 50 generated default questions. -/
def defaultQuestions : List Question := (List.range 50).map defaultQuestion

/-- The fallback payload of `loadQuestions` (line 203). -/
def fallbackPayload : TestDataPayload := ⟨{}, defaultQuestions⟩

/-- The shape of the `questions` field of a parsed load-questions
response: absent/null, the legacy bare array, the payload object carrying
a `questions` field, or some other truthy value. -/
inductive LoadQField where
  | absent
  | arr (qs : List Question)
  | payloadObj (p : TestDataPayload)
  | otherObj

/-- What `JSON.parse` plus the shape checks of `loadQuestions` observe in
a response body. -/
inductive LoadParse where
  | parseFail
  | parsed (ok : Bool) (questions : LoadQField)

/-- `loadQuestions` (questionsData.ts lines 197-227), parameterised by the
external JSON decoder. A body with `ok` and a questions array or payload
object is returned; `ok` with no saved questions yields the built-in
fallback; everything else — including exhausted retries — surfaces the
unreachable error. -/
def loadQuestions (decode : String → LoadParse) (outcomes : Nat → ExecOutcome) :
    Except String TestDataPayload :=
  match (executeWithRetry outcomes).1 with
  | some b =>
      match decode b with
      | .parsed true (.arr qs) => .ok ⟨{}, qs⟩
      | .parsed true (.payloadObj p) => .ok p
      | .parsed true .absent => .ok fallbackPayload
      | _ => .error "Failed to load questions — server unreachable"
  | none => .error "Failed to load questions — server unreachable"

/-! ## The access-wall retry loop (AccessCodeWall.tsx lines 26-82) -/

/-- A response body as handleSubmit sees it: unparsable, or parsed with
its `valid` flag. -/
inductive WallBody where
  | malformed
  | parsed (valid : Bool)
deriving DecidableEq, Repr

/-- One gateway attempt of handleSubmit: the SDK call rejects, or
resolves with a `failed`-status flag and an optional response body. -/
inductive WallExec where
  | throw
  | exec (failed : Bool) (body : Option WallBody)
deriving DecidableEq, Repr

/-- Terminal states of handleSubmit: unlock, the invalid-code error, or
the 'Unable to verify' unreachable error. -/
inductive WallOutcome where
  | unlocked
  | invalidCode
  | unreachable
deriving DecidableEq, Repr

/-- An attempt succeeds only when the execution status is not `failed`
and the body is present and parses; it then yields
`parsed.valid === true`. Everything else throws into the catch block. -/
def wallAttemptValid : WallExec → Option Bool
  | .exec false (some (.parsed v)) => some v
  | _ => none

/-- The while-loop of handleSubmit: 3 attempts, 1000 ms between failed
attempts, terminal `unreachable` on exhaustion. -/
def wallGo (outcomes : Nat → WallExec) : Nat → Nat → Nat →
    WallOutcome × Nat × Nat
  | 0, calls, delay => (.unreachable, calls, delay)
  | remaining + 1, calls, delay =>
      match wallAttemptValid (outcomes calls) with
      | some v => (if v then .unlocked else .invalidCode, calls + 1, delay)
      | none =>
          if remaining = 0 then (.unreachable, calls + 1, delay)
          else wallGo outcomes remaining (calls + 1) (delay + 1000)

/-- `handleSubmit` of AccessCodeWall.tsx (`maxRetries = 3`). -/
def handleSubmit (outcomes : Nat → WallExec) : WallOutcome × Nat × Nat :=
  wallGo outcomes 3 0 0

/-- Wall loop: first `k` attempts fail, attempt `k` succeeds. -/
theorem wallGo_succ_at (outcomes : Nat → WallExec) (v : Bool) :
    ∀ k remaining calls delay, k < remaining →
      (∀ i, i < k → wallAttemptValid (outcomes (calls + i)) = none) →
      wallAttemptValid (outcomes (calls + k)) = some v →
      wallGo outcomes remaining calls delay =
        (if v then .unlocked else .invalidCode, calls + k + 1, delay + k * 1000) := by
  intro k
  induction k with
  | zero =>
      intro remaining calls delay hk hfail hsucc
      cases remaining with
      | zero => omega
      | succ r =>
          have hs : wallAttemptValid (outcomes calls) = some v := by simpa using hsucc
          simp [wallGo, hs]
  | succ k ih =>
      intro remaining calls delay hk hfail hsucc
      cases remaining with
      | zero => omega
      | succ r =>
          have h0 : wallAttemptValid (outcomes calls) = none := by
            simpa using hfail 0 (by omega)
          have hr : r ≠ 0 := by omega
          rw [wallGo, h0]
          simp only [hr, if_false]
          rw [ih r (calls + 1) (delay + 1000) (by omega)
            (fun i hi => by
              have := hfail (i + 1) (by omega)
              simpa [Nat.add_assoc, Nat.add_comm 1 i] using this)
            (by simpa [Nat.add_assoc, Nat.add_comm 1 k] using hsucc)]
          refine congrArg₂ Prod.mk rfl (congrArg₂ Prod.mk (by omega) (by ring))

/-- Wall loop: all attempts fail. -/
theorem wallGo_all_fail (outcomes : Nat → WallExec) :
    ∀ remaining calls delay, 0 < remaining →
      (∀ i, i < remaining → wallAttemptValid (outcomes (calls + i)) = none) →
      wallGo outcomes remaining calls delay =
        (.unreachable, calls + remaining, delay + (remaining - 1) * 1000) := by
  intro remaining
  induction remaining with
  | zero => omega
  | succ r ih =>
      intro calls delay _ hfail
      have h0 : wallAttemptValid (outcomes calls) = none := by
        simpa using hfail 0 (by omega)
      rw [wallGo, h0]
      cases Nat.eq_zero_or_pos r with
      | inl hr => subst hr; simp
      | inr hr =>
          have hrne : r ≠ 0 := by omega
          simp only [hrne, if_false]
          rw [ih (calls + 1) (delay + 1000) hr
            (fun i hi => by
              have := hfail (i + 1) (by omega)
              simpa [Nat.add_assoc, Nat.add_comm 1 i] using this)]
          obtain ⟨k, hk⟩ : ∃ k, r = k + 1 := ⟨r - 1, by omega⟩
          subst hk
          refine congrArg₂ Prod.mk rfl (congrArg₂ Prod.mk (by omega) ?_)
          simp only [Nat.add_sub_cancel]
          ring

/-! ## The sendResults retry loop (questionsData.ts lines 440-488) -/

/-- A response body as `sendResults` sees it: unparsable, or parsed with
`ok: true`, or parsed with `ok: false` and an optional error string. -/
inductive SendBody where
  | malformed
  | okTrue
  | okFalse (errMsg : Option String)
deriving DecidableEq, Repr

/-- One gateway attempt of sendResults: the SDK call rejects with a
message, or resolves with a `failed`-status flag and an optional body. -/
inductive SendExec where
  | throw (msg : String)
  | exec (failed : Bool) (body : Option SendBody)
deriving DecidableEq, Repr

/-- The outcome of one attempt of the sendResults loop: `none` means the
attempt succeeded, `some msg` is the error the catch block receives. An
absent body and a body that fails JSON.parse (SyntaxError is swallowed)
both count as SUCCESS; a parsed body with `ok: false` throws
`parsed.error || 'Unknown error from function'`, which the outer catch
treats as a failed attempt and retries. -/
def sendAttempt : SendExec → Option String
  | .throw msg => some msg
  | .exec true _ => some "Appwrite execution failed (cold start timeout)"
  | .exec false none => none
  | .exec false (some .malformed) => none
  | .exec false (some .okTrue) => none
  | .exec false (some (.okFalse m)) => some (m.getD "Unknown error from function")

/-- The while-loop of sendResults: 3 attempts, 1000 ms between failed
attempts, rethrowing the last error on exhaustion. -/
def sendGo (outcomes : Nat → SendExec) : Nat → Nat → Nat →
    Except String Unit × Nat × Nat
  | 0, calls, delay => (.ok (), calls, delay)
  | remaining + 1, calls, delay =>
      match sendAttempt (outcomes calls) with
      | none => (.ok (), calls + 1, delay)
      | some msg =>
          if remaining = 0 then (.error msg, calls + 1, delay)
          else sendGo outcomes remaining (calls + 1) (delay + 1000)

/-- `sendResults` (`maxRetries = 3`). -/
def sendResults (outcomes : Nat → SendExec) : Except String Unit × Nat × Nat :=
  sendGo outcomes 3 0 0

/-- Send loop: if every attempt fails with the same caught error, the
loop exhausts its budget and rethrows that error. -/
theorem sendGo_all_fail (outcomes : Nat → SendExec) (m : String) :
    ∀ remaining calls delay, 0 < remaining →
      (∀ i, i < remaining → sendAttempt (outcomes (calls + i)) = some m) →
      sendGo outcomes remaining calls delay =
        (.error m, calls + remaining, delay + (remaining - 1) * 1000) := by
  intro remaining
  induction remaining with
  | zero => omega
  | succ r ih =>
      intro calls delay _ hfail
      have h0 : sendAttempt (outcomes calls) = some m := by
        simpa using hfail 0 (by omega)
      rw [sendGo, h0]
      cases Nat.eq_zero_or_pos r with
      | inl hr => subst hr; simp
      | inr hr =>
          have hrne : r ≠ 0 := by omega
          simp only [hrne, if_false]
          rw [ih (calls + 1) (delay + 1000) hr
            (fun i hi => by
              have := hfail (i + 1) (by omega)
              simpa [Nat.add_assoc, Nat.add_comm 1 i] using this)]
          obtain ⟨k, hk⟩ : ∃ k, r = k + 1 := ⟨r - 1, by omega⟩
          subst hk
          refine congrArg₂ Prod.mk rfl (congrArg₂ Prod.mk (by omega) ?_)
          simp only [Nat.add_sub_cancel]
          ring

/-- C3 counterexample: a gateway whose every call resolves successfully
with a body encoding an application-level error (`ok: false`) makes
`sendResults` issue all 3 gateway calls — consuming its whole retry
budget — before the error is propagated; the claim says such a response
propagates immediately after a single call. -/
theorem sendResults_retries_app_error_counterexample :
    (sendResults (fun _ =>
        .exec false (some (.okFalse (some "Failed to send email"))))).2.1 = 3 ∧
    (sendResults (fun _ =>
        .exec false (some (.okFalse (some "Failed to send email"))))).2.1 ≠ 1 ∧
    (sendResults (fun _ =>
        .exec false (some (.okFalse (some "Failed to send email"))))).1 =
      Except.error "Failed to send email" := by
  refine ⟨rfl, by decide, rfl⟩

/-- C3 amended: `executeWithRetry` — the harness of all content
operations — returns the body of the first successful gateway response
without inspecting it, after exactly one call and no delay, so bodies
encoding application-level errors (e.g. Unauthorized) propagate to the
caller immediately without consuming retry budget; `sendResults`,
however, treats a successfully delivered body with `ok: false` as a
failed attempt, retrying it and propagating the error only after
exhausting its 3 attempts. -/
theorem retry_app_error_split (outcomes : Nat → ExecOutcome) (b : String)
    (souts : Nat → SendExec) (m : String)
    (hb : b ≠ "") (h0 : outcomes 0 = .ok b)
    (hs : ∀ i, i < 3 → sendAttempt (souts i) = some m) :
    executeWithRetry outcomes = (some b, 1, 0) ∧
    sendResults souts = (.error m, 3, 2000) := by
  constructor
  · have h := ewrGo_succ_at outcomes b hb 0 5 0 0 (by omega)
      (fun i hi => by omega) (by simpa using h0)
    simpa [executeWithRetry, MAX_RETRIES] using h
  · have h := sendGo_all_fail souts m 3 0 0 (by omega)
      (fun i hi => by simpa using hs i hi)
    simpa [sendResults] using h

/-- Witness for C3 amended: a first-call success body is returned by
`executeWithRetry` after one call, and a constant `ok: false`
Unauthorized body is retried by `sendResults` until its 3 attempts are
spent. -/
theorem retry_app_error_split_witness :
    executeWithRetry (fun _ => .ok "UNAUTHORIZED_ERROR_BODY") =
      (some "UNAUTHORIZED_ERROR_BODY", 1, 0) ∧
    sendResults (fun _ => .exec false (some (.okFalse (some "Unauthorized")))) =
      (.error "Unauthorized", 3, 2000) :=
  retry_app_error_split (fun _ => .ok "UNAUTHORIZED_ERROR_BODY")
    "UNAUTHORIZED_ERROR_BODY"
    (fun _ => .exec false (some (.okFalse (some "Unauthorized")))) "Unauthorized"
    (by decide) rfl (fun _ _ => rfl)

/-- C8: a gateway failing the first `N - 1` attempts and succeeding on
attempt `N` makes the harness return the successful result with no error
surfaced and no further calls (`executeWithRetry` with its 5-attempt
budget for content operations — `loadQuestions` then yields the loaded
payload — and `handleSubmit` with its 3-attempt budget for
verification); a gateway failing all allowed attempts makes the harness
surface the unreachable error after exactly `MAX_ATTEMPTS` calls, with
the fixed inter-attempt delay accumulated between failed attempts. -/
theorem retry_harness_bounds
    (outcomes : Nat → ExecOutcome) (N : Nat) (b : String)
    (decode : String → LoadParse) (qs : List Question)
    (wouts : Nat → WallExec) (M : Nat) (v : Bool)
    (bouts : Nat → ExecOutcome) (wouts2 : Nat → WallExec)
    (hN1 : 1 ≤ N) (hN5 : N ≤ 5)
    (hfail : ∀ i, i < N - 1 → outcomes i = .throw)
    (hsucc : outcomes (N - 1) = .ok b) (hb : b ≠ "")
    (hdec : decode b = .parsed true (.arr qs))
    (hM1 : 1 ≤ M) (hM3 : M ≤ 3)
    (wfail : ∀ i, i < M - 1 → wallAttemptValid (wouts i) = none)
    (wsucc : wallAttemptValid (wouts (M - 1)) = some v)
    (ballfail : ∀ i, i < 5 → bouts i = .throw)
    (wallfail : ∀ i, i < 3 → wallAttemptValid (wouts2 i) = none) :
    executeWithRetry outcomes = (some b, N, (N - 1) * RETRY_DELAY_MS) ∧
    loadQuestions decode outcomes = .ok ⟨{}, qs⟩ ∧
    handleSubmit wouts =
      ((if v then .unlocked else .invalidCode), M, (M - 1) * 1000) ∧
    executeWithRetry bouts = (none, 5, 4 * RETRY_DELAY_MS) ∧
    loadQuestions decode bouts =
      .error "Failed to load questions — server unreachable" ∧
    handleSubmit wouts2 = (.unreachable, 3, 2 * 1000) := by
  have h1 : executeWithRetry outcomes = (some b, N, (N - 1) * RETRY_DELAY_MS) := by
    have h := ewrGo_succ_at outcomes b hb (N - 1) 5 0 0 (by omega)
      (fun i hi => by simpa using hfail i hi) (by simpa using hsucc)
    have hN : N - 1 + 1 = N := by omega
    simpa [executeWithRetry, MAX_RETRIES, hN] using h
  have h4 : executeWithRetry bouts = (none, 5, 4 * RETRY_DELAY_MS) := by
    have h := ewrGo_all_fail bouts 5 0 0 (by omega)
      (fun i hi => by simpa using ballfail i hi)
    simpa [executeWithRetry, MAX_RETRIES] using h
  refine ⟨h1, ?_, ?_, h4, ?_, ?_⟩
  · rw [loadQuestions, h1]
    simp [hdec]
  · have h := wallGo_succ_at wouts v (M - 1) 3 0 0 (by omega)
      (fun i hi => by simpa using wfail i hi) (by simpa using wsucc)
    have hM : M - 1 + 1 = M := by omega
    simpa [handleSubmit, hM] using h
  · rw [loadQuestions, h4]
  · have h := wallGo_all_fail wouts2 3 0 0 (by omega)
      (fun i hi => by simpa using wallfail i hi)
    simpa [handleSubmit] using h

/-- Witness for C8: two rejected calls then a success at attempt 3 for the
content harness (6000 ms of delay, payload loaded), a first-attempt
success for the wall, and all-fail streams exhausting both budgets. -/
theorem retry_harness_bounds_witness :
    executeWithRetry (fun i => if i < 2 then .throw else .ok "BODY") =
      (some "BODY", 3, 2 * RETRY_DELAY_MS) ∧
    loadQuestions (fun _ => .parsed true (.arr []))
        (fun i => if i < 2 then .throw else .ok "BODY") = .ok ⟨{}, []⟩ ∧
    handleSubmit (fun _ => .exec false (some (.parsed true))) =
      (.unlocked, 1, 0) ∧
    executeWithRetry (fun _ => .throw) = (none, 5, 4 * RETRY_DELAY_MS) ∧
    loadQuestions (fun _ => .parsed true (.arr [])) (fun _ => .throw) =
      .error "Failed to load questions — server unreachable" ∧
    handleSubmit (fun _ => .throw) = (.unreachable, 3, 2 * 1000) := by
  have h := retry_harness_bounds
    (fun i => if i < 2 then .throw else .ok "BODY") 3 "BODY"
    (fun _ => .parsed true (.arr [])) []
    (fun _ => .exec false (some (.parsed true))) 1 true
    (fun _ => .throw) (fun _ => .throw)
    (by omega) (by omega)
    (fun i hi => by simp [show i < 2 from hi])
    (by norm_num) (by decide) rfl
    (by omega) (by omega)
    (fun i hi => by omega)
    rfl
    (fun i _ => rfl) (fun i _ => rfl)
  simpa using h

/-! ## Option deletion in the editor (TestEditor deleteOption,
concatenated AccessCodeWall.tsx source lines 514-531) -/

/-- The index shift applied to a surviving multiple-answer correct index:
`ci > oIndex ? ci - 1 : ci`. -/
def shiftIdx (oIndex ci : Nat) : Nat :=
  if oIndex < ci then ci - 1 else ci

/-- `deleteOption`: refuse when only two options remain; otherwise remove
the option at `oIndex` (`options.filter((_, i) => i !== oIndex)`, i.e.
`eraseIdx`), resetting a deleted multiple-choice correct index to 0 and
decrementing a later one, and filtering/shifting multiple-answer correct
indices with `[0]` as the fallback when none survive. The editor invokes
it only on option-bearing questions; an essay is returned unchanged. -/
def deleteOption (q : Question) (oIndex : Nat) : Question :=
  match q with
  | .mc id prompt img opts ci rnd =>
      if opts.length ≤ 2 then .mc id prompt img opts ci rnd
      else
        let newCorrect := if oIndex = ci then 0 else shiftIdx oIndex ci
        .mc id prompt img (opts.eraseIdx oIndex) newCorrect rnd
  | .ma id prompt img opts cis rnd =>
      if opts.length ≤ 2 then .ma id prompt img opts cis rnd
      else
        let newCis := (cis.filter (fun c => c ≠ oIndex)).map (shiftIdx oIndex)
        .ma id prompt img (opts.eraseIdx oIndex)
          (if newCis.isEmpty then [0] else newCis) rnd
  | .essay id prompt img => .essay id prompt img

/-- C10: deleting an option preserves well-formedness. Deletion is refused
when only two options remain; for a well-formed multiple-choice question
the new correct index is a valid index into the remaining options (0 when
the correct option itself was deleted, decremented when an earlier option
was deleted, unchanged otherwise); for a well-formed multiple-answer
question the correct indices remain a non-empty duplicate-free list of
valid indices. -/
theorem deleteOption_wellformed (id : Nat) (prompt : String)
    (img : Option String) (opts : List String) (rnd : Bool)
    (oIndex ci : Nat) (cis : List Nat)
    (hlen : 2 < opts.length) (hoi : oIndex < opts.length) :
    (∀ opts2 : List String, opts2.length ≤ 2 →
      deleteOption (.mc id prompt img opts2 ci rnd) oIndex =
        .mc id prompt img opts2 ci rnd ∧
      deleteOption (.ma id prompt img opts2 cis rnd) oIndex =
        .ma id prompt img opts2 cis rnd) ∧
    (ci < opts.length →
      ∃ newCi,
        deleteOption (.mc id prompt img opts ci rnd) oIndex =
          .mc id prompt img (opts.eraseIdx oIndex) newCi rnd ∧
        (opts.eraseIdx oIndex).length = opts.length - 1 ∧
        newCi < (opts.eraseIdx oIndex).length ∧
        (oIndex = ci → newCi = 0) ∧
        (oIndex < ci → newCi = ci - 1) ∧
        (ci < oIndex → newCi = ci)) ∧
    (cis ≠ [] → (∀ c ∈ cis, c < opts.length) → cis.Nodup →
      ∃ newCis,
        deleteOption (.ma id prompt img opts cis rnd) oIndex =
          .ma id prompt img (opts.eraseIdx oIndex) newCis rnd ∧
        newCis ≠ [] ∧
        (∀ c ∈ newCis, c < (opts.eraseIdx oIndex).length) ∧
        newCis.Nodup) := by
  have hnle : ¬ opts.length ≤ 2 := by omega
  have herase : (opts.eraseIdx oIndex).length = opts.length - 1 :=
    List.length_eraseIdx_of_lt hoi
  refine ⟨fun opts2 h2 => ⟨?_, ?_⟩, fun hci => ?_, fun hne hvalid hnd => ?_⟩
  · simp only [deleteOption]
    rw [if_pos h2]
  · simp only [deleteOption]
    rw [if_pos h2]
  · refine ⟨if oIndex = ci then 0 else shiftIdx oIndex ci, ?_, herase, ?_, ?_, ?_, ?_⟩
    · simp only [deleteOption]
      rw [if_neg hnle]
    · rw [herase]
      unfold shiftIdx
      split_ifs <;> omega
    · intro h
      rw [if_pos h]
    · intro h
      have hne2 : oIndex ≠ ci := by omega
      rw [if_neg hne2]
      unfold shiftIdx
      rw [if_pos h]
    · intro h
      have hne2 : oIndex ≠ ci := by omega
      have h2 : ¬ oIndex < ci := by omega
      rw [if_neg hne2]
      unfold shiftIdx
      rw [if_neg h2]
  · refine ⟨if ((cis.filter (fun c => c ≠ oIndex)).map (shiftIdx oIndex)).isEmpty
        then [0] else (cis.filter (fun c => c ≠ oIndex)).map (shiftIdx oIndex),
      ?_, ?_, ?_, ?_⟩
    · simp only [deleteOption]
      rw [if_neg hnle]
    · by_cases h : ((cis.filter (fun c => c ≠ oIndex)).map (shiftIdx oIndex)).isEmpty
      · rw [if_pos h]
        simp
      · rw [if_neg h]
        exact fun habs => h (by rw [habs]; rfl)
    · intro c hc
      rw [herase]
      by_cases h : ((cis.filter (fun c => c ≠ oIndex)).map (shiftIdx oIndex)).isEmpty
      · rw [if_pos h] at hc
        have : c = 0 := by simpa using hc
        omega
      · rw [if_neg h] at hc
        obtain ⟨c0, hc0mem, hc0eq⟩ := List.mem_map.mp hc
        have hc0f := List.mem_filter.mp hc0mem
        have hc0cis : c0 ∈ cis := hc0f.1
        have hc0ne : c0 ≠ oIndex := by simpa using hc0f.2
        have hc0lt : c0 < opts.length := hvalid c0 hc0cis
        subst hc0eq
        unfold shiftIdx
        split_ifs <;> omega
    · by_cases h : ((cis.filter (fun c => c ≠ oIndex)).map (shiftIdx oIndex)).isEmpty
      · rw [if_pos h]
        exact List.nodup_singleton 0
      · rw [if_neg h]
        refine List.Nodup.map_on ?_ (hnd.filter _)
        intro x hx y hy hxy
        have hxne : x ≠ oIndex := by simpa using (List.mem_filter.mp hx).2
        have hyne : y ≠ oIndex := by simpa using (List.mem_filter.mp hy).2
        unfold shiftIdx at hxy
        split_ifs at hxy <;> omega

/-- Witness for C10: deleting option 0 of a three-option question with
`correctIndex = 1` keeps the question well-formed with the index
decremented to 0, and the multiple-answer clause holds for
`correctIndices = [1, 2]`. -/
theorem deleteOption_wellformed_witness :
    (∃ newCi,
      deleteOption (.mc 1 "p" none ["A", "B", "C"] 1 false) 0 =
        .mc 1 "p" none (["A", "B", "C"].eraseIdx 0) newCi false ∧
      ((["A", "B", "C"] : List String).eraseIdx 0).length =
        (["A", "B", "C"] : List String).length - 1 ∧
      newCi < ((["A", "B", "C"] : List String).eraseIdx 0).length ∧
      ((0 : Nat) = 1 → newCi = 0) ∧ ((0 : Nat) < 1 → newCi = 0) ∧
      ((1 : Nat) < 0 → newCi = 1)) ∧
    (∃ newCis,
      deleteOption (.ma 1 "p" none ["A", "B", "C"] [1, 2] false) 0 =
        .ma 1 "p" none (["A", "B", "C"].eraseIdx 0) newCis false ∧
      newCis ≠ [] ∧
      (∀ c ∈ newCis, c < ((["A", "B", "C"] : List String).eraseIdx 0).length) ∧
      newCis.Nodup) :=
  ⟨(deleteOption_wellformed 1 "p" none ["A", "B", "C"] false 0 1 [1, 2]
      (by decide) (by decide)).2.1 (by decide),
   (deleteOption_wellformed 1 "p" none ["A", "B", "C"] false 0 1 [1, 2]
      (by decide) (by decide)).2.2 (by decide) (by decide) (by decide)⟩

end TestApp
